import Mathlib

/-
Verification of the decision-reconciliation engine, agent registry, stats
accumulator and reasoning-graph builder of the AgentWatch dashboard
(src/dashboard/AgentWatchDashboard.jsx), via a shallow embedding in Lean.

Fields that may be absent on a JavaScript wire record are modelled as
Option String; interpolation of a possibly-absent value into a template
literal is modelled by strOrUndefined (JS renders undefined as the string
"undefined").  JS Sets are modelled as duplicate-free lists preserving
insertion order; JS objects used as string-keyed maps are modelled as
association lists where an update hits the first (unique) binding.
-/

namespace AgentWatch

/-- JS template-literal rendering of a possibly-undefined string value. -/
def strOrUndefined : Option String → String
  | some s => s
  | none => "undefined"

/-- One governance decision record as delivered on the wire
(see makeMockEntry and the ws decision payload in AgentWatchDashboard.jsx). -/
structure DecisionRecord where
  id : Option String := none
  agent_id : Option String := none
  step_id : Option String := none
  decision : Option String := none
  reason : Option String := none
  details : Option String := none
  triggered_by : Option String := none
  thought : Option String := none
  tool_used : Option String := none
  raw_log : Option String := none
  timestamp : Option String := none
  isNew : Bool := false
  deriving Repr, DecidableEq

/-- Identity of a record: `d.id || (d.agent_id + "-" + d.step_id)`
(AgentWatchDashboard.jsx lines 1099 and 1147).  A present but empty id is
falsy in JS and falls through to the composed form. -/
def recordUid (d : DecisionRecord) : String :=
  match d.id with
  | some s =>
      if s = "" then strOrUndefined d.agent_id ++ "-" ++ strOrUndefined d.step_id else s
  | none => strOrUndefined d.agent_id ++ "-" ++ strOrUndefined d.step_id

/-- The decision reconciler's state: the session-scoped set of seen
identities (seenIds ref) and the visible decision buffer (logs state),
newest first. -/
structure ReconcilerState where
  seenIds : List String := []
  logs : List DecisionRecord := []
  deriving Repr, DecidableEq

/-- The genuinely-new entries of a batch relative to a seen-identity set:
records whose identity is unseen, each flagged isNew
(the filter/map chain at AgentWatchDashboard.jsx lines 1097-1106). -/
def newEntriesOf (seen : List String) (batch : List DecisionRecord) : List DecisionRecord :=
  (batch.filter (fun d => !(seen.contains (recordUid d)))).map
    (fun d => { d with isNew := true })

/-- Poll-fallback batch ingestion (AgentWatchDashboard.jsx lines 1096-1116):
filter the batch down to records whose identity is not yet seen, mark each
seen and flag it new, and when at least one is new prepend them and truncate
the buffer to 100.  Returns the new state together with the list of
genuinely-new entries. -/
def ingestPoll (st : ReconcilerState) (batch : List DecisionRecord) :
    ReconcilerState × List DecisionRecord :=
  ({ seenIds := st.seenIds ++ (newEntriesOf st.seenIds batch).map recordUid,
     logs :=
       if 0 < (newEntriesOf st.seenIds batch).length then
         (newEntriesOf st.seenIds batch ++ st.logs).take 100
       else st.logs },
   newEntriesOf st.seenIds batch)

theorem recordUid_setNew (d : DecisionRecord) (b : Bool) :
    recordUid { d with isNew := b } = recordUid d := rfl

theorem ingestPoll_seen_of_mem (st : ReconcilerState) (batch : List DecisionRecord)
    (d : DecisionRecord) (hd : d ∈ batch) :
    recordUid d ∈ (ingestPoll st batch).1.seenIds := by
  by_cases hseen : st.seenIds.contains (recordUid d) = true
  · have : recordUid d ∈ st.seenIds := by simpa using hseen
    simp [ingestPoll, List.mem_append, this]
  · have hfil : d ∈ batch.filter (fun d => !(st.seenIds.contains (recordUid d))) := by
      simp only [List.mem_filter, hd, true_and]
      simp_all
    have huid : recordUid d ∈ (newEntriesOf st.seenIds batch).map recordUid := by
      unfold newEntriesOf
      rw [List.map_map]
      exact List.mem_map.mpr ⟨d, hfil, rfl⟩
    simp [ingestPoll, List.mem_append, huid]

/-- After one ingestion of a batch, re-filtering the same batch finds
nothing new. -/
theorem newEntriesOf_after_ingest (st : ReconcilerState) (batch : List DecisionRecord) :
    newEntriesOf (ingestPoll st batch).1.seenIds batch = [] := by
  unfold newEntriesOf
  have hfil : batch.filter
      (fun d => !((ingestPoll st batch).1.seenIds.contains (recordUid d))) = [] := by
    rw [List.filter_eq_nil_iff]
    intro d hd
    have := ingestPoll_seen_of_mem st batch d hd
    simpa using this
  rw [hfil]
  rfl

/-- C1: ingesting the same batch of decision records twice is idempotent:
after the first ingestion the second ingestion reports zero genuinely-new
entries and returns the reconciler state (seen identities and decision
buffer) unchanged.  Identity is the explicit id field when present and
otherwise agentId + "-" + stepId, remembered for the whole session in
seenIds. -/
theorem ingest_idempotent (st : ReconcilerState) (batch : List DecisionRecord) :
    (ingestPoll (ingestPoll st batch).1 batch).2 = [] ∧
    (ingestPoll (ingestPoll st batch).1 batch).1 = (ingestPoll st batch).1 := by
  have h := newEntriesOf_after_ingest st batch
  simp only [ingestPoll] at h
  refine ⟨by simp [ingestPoll, h], ?_⟩
  simp [ingestPoll, h]

/-- Aggregate statistics snapshot (the stats state; violations_by_type is a
string-keyed count map, modelled as an association list with unique keys
where an update hits the first binding). -/
structure Stats where
  total_steps : Nat := 0
  halt_count : Nat := 0
  proceed_count : Nat := 0
  violations_by_type : List (String × Nat) := []
  deriving Repr, DecidableEq

/-- The zeroed stats snapshot (as installed by the reset handler). -/
def zeroStats : Stats :=
  { total_steps := 0, halt_count := 0, proceed_count := 0, violations_by_type := [] }

/-- Sum of all per-reason violation counts. -/
def sumViolations (m : List (String × Nat)) : Nat := (m.map Prod.snd).sum

/-- JS object update `m[k] = (m[k] || 0) + 1` on a string-keyed count map:
bump the binding of k, or append (k, 1) when k is absent. -/
def bumpReason : List (String × Nat) → String → List (String × Nat)
  | [], k => [(k, 1)]
  | p :: rest, k => if p.1 = k then (p.1, p.2 + 1) :: rest else p :: bumpReason rest k

/-- Count stored under key k (0 when absent). -/
def lookupCount : List (String × Nat) → String → Nat
  | [], _ => 0
  | p :: rest, k => if p.1 = k then p.2 else lookupCount rest k

/-- Reason key used by the stats update: `decision.reason || "UNKNOWN"`
(AgentWatchDashboard.jsx line 1171); an absent or empty reason is falsy. -/
def reasonKey (d : DecisionRecord) : String :=
  match d.reason with
  | some s => if s = "" then "UNKNOWN" else s
  | none => "UNKNOWN"

/-- Incremental stats update on one pushed decision
(AgentWatchDashboard.jsx lines 1164-1178): add 1 to total_steps, then on
HALT add 1 to halt_count and to violations_by_type[reason], otherwise add 1
to proceed_count. -/
def applyDecisionStats (s : Stats) (d : DecisionRecord) : Stats :=
  if d.decision = some "HALT" then
    { s with
      total_steps := s.total_steps + 1,
      halt_count := s.halt_count + 1,
      violations_by_type := bumpReason s.violations_by_type (reasonKey d) }
  else
    { s with total_steps := s.total_steps + 1, proceed_count := s.proceed_count + 1 }

theorem sumViolations_bumpReason (m : List (String × Nat)) (k : String) :
    sumViolations (bumpReason m k) = sumViolations m + 1 := by
  induction m with
  | nil => simp [bumpReason, sumViolations]
  | cons p rest ih =>
      by_cases h : p.1 = k
      · simp [bumpReason, h, sumViolations]
        omega
      · simp only [bumpReason, if_neg h, sumViolations, List.map_cons, List.sum_cons]
        simp only [sumViolations] at ih
        omega

theorem lookupCount_bumpReason (m : List (String × Nat)) (k : String) :
    lookupCount (bumpReason m k) k = lookupCount m k + 1 := by
  induction m with
  | nil => simp [bumpReason, lookupCount]
  | cons p rest ih =>
      by_cases h : p.1 = k
      · simp [bumpReason, h, lookupCount]
      · simp only [bumpReason, if_neg h, lookupCount]
        exact ih

/-- The two stats invariants of the spec. -/
def statsInv (s : Stats) : Prop :=
  s.halt_count = sumViolations s.violations_by_type ∧
  s.total_steps = s.halt_count + s.proceed_count

theorem statsInv_applyDecisionStats (s : Stats) (d : DecisionRecord)
    (h : statsInv s) : statsInv (applyDecisionStats s d) := by
  obtain ⟨h1, h2⟩ := h
  unfold applyDecisionStats statsInv
  by_cases hd : d.decision = some "HALT"
  · simp only [if_pos hd]
    constructor
    · simp [sumViolations_bumpReason, h1]
    · omega
  · simp only [if_neg hd]
    exact ⟨h1, by omega⟩

theorem statsInv_foldl (s : Stats) (ds : List DecisionRecord) (h : statsInv s) :
    statsInv (ds.foldl applyDecisionStats s) := by
  induction ds generalizing s with
  | nil => exact h
  | cons d rest ih => exact ih _ (statsInv_applyDecisionStats s d h)

/-- C3: after any sequence of incremental stats updates applied to the zero
snapshot, halt_count equals the sum of violations_by_type values and
total_steps equals halt_count plus proceed_count. -/
theorem stats_invariant_any_sequence (ds : List DecisionRecord) :
    statsInv (ds.foldl applyDecisionStats zeroStats) := by
  apply statsInv_foldl
  constructor <;> rfl

/-- C10: a HALT decision with an absent reason field is counted under the
key "UNKNOWN" in violations_by_type, and the stats invariants are
maintained by the update. -/
theorem halt_missing_reason_unknown (s : Stats) (d : DecisionRecord)
    (hdec : d.decision = some "HALT") (hr : d.reason = none) :
    lookupCount (applyDecisionStats s d).violations_by_type "UNKNOWN" =
      lookupCount s.violations_by_type "UNKNOWN" + 1 ∧
    (applyDecisionStats s d).halt_count = s.halt_count + 1 ∧
    (statsInv s → statsInv (applyDecisionStats s d)) := by
  have hk : reasonKey d = "UNKNOWN" := by simp [reasonKey, hr]
  refine ⟨?_, ?_, statsInv_applyDecisionStats s d⟩
  · simp [applyDecisionStats, hdec, hk, lookupCount_bumpReason]
  · simp [applyDecisionStats, hdec]

/-- Concrete HALT record with no reason field, used to witness C10. -/
def haltNoReasonRec : DecisionRecord :=
  { id := some "w-1", agent_id := some "agent-001", decision := some "HALT" }

theorem halt_missing_reason_unknown_witness :
    lookupCount (applyDecisionStats zeroStats haltNoReasonRec).violations_by_type "UNKNOWN" =
      lookupCount zeroStats.violations_by_type "UNKNOWN" + 1 ∧
    (applyDecisionStats zeroStats haltNoReasonRec).halt_count = zeroStats.halt_count + 1 ∧
    (statsInv zeroStats → statsInv (applyDecisionStats zeroStats haltNoReasonRec)) :=
  halt_missing_reason_unknown zeroStats haltNoReasonRec rfl rfl

/-- One agent row of the registry (agents state).  The status field holds
the server-reported status on wire records and the derived display status
after a merge; fields that may be absent on the wire are Options. -/
structure AgentRec where
  agent_id : Option String := none
  name : Option String := none
  status : Option String := none
  halt_count : Nat := 0
  total_steps : Nat := 0
  lastDecision : Option String := none
  deriving Repr, DecidableEq

/-- Friendly names for agent ids (the AGENT_NAMES constant,
AgentWatchDashboard.jsx lines 983-992). -/
def AGENT_NAMES : List (String × String) :=
  [("agent-001", "TradeBot Alpha"), ("agent-002", "RiskGuard Beta"),
   ("agent-003", "RecoEngine v2"), ("agent-004", "MarketScanner"),
   ("agent-005", "ComplianceBot"), ("agent-006", "SentimentAI"),
   ("agent-007", "ArbitrageX"), ("agent-008", "ReportGen Pro")]

/-- Lookup in a string-keyed object. -/
def lookupName (names : List (String × String)) (k : String) : Option String :=
  (names.find? (fun p => p.1 = k)).map Prod.snd

/-- The display-name expression `names[agentId] || agentId`: an
object lookup keyed by the (stringified) agent id, falling back to the raw
agent id when the lookup misses or hits a falsy (empty) name. -/
def displayName (names : List (String × String)) (aid : Option String) : Option String :=
  match lookupName names (strOrUndefined aid) with
  | some n => if n = "" then aid else some n
  | none => aid

/-- Derived display status of the merge rule
(AgentWatchDashboard.jsx line 124 and the identical inline computation at
lines 1035 and 1091): locally-halted wins, then halt_count > 2 flags
WARNING, otherwise RUNNING.  The server-reported status field of the input
record is not consulted. -/
def mergedStatus (localHalted : List (Option String)) (a : AgentRec) : String :=
  if localHalted.contains a.agent_id then "HALTED"
  else if a.halt_count > 2 then "WARNING" else "RUNNING"

/-- mergeAgents (AgentWatchDashboard.jsx lines 120-127): merge the backend
agent list with the local halt override set, overriding name, status and
lastDecision per agent. -/
def mergeAgents (backendAgents : List AgentRec) (localHalted : List (Option String))
    (agentNames : List (String × String)) : List AgentRec :=
  backendAgents.map fun a =>
    { a with
      name := displayName agentNames a.agent_id,
      status := some (mergedStatus localHalted a),
      lastDecision := some (if a.halt_count > 0 then "HALT" else "PROCEED") }

/-- A backend agent record whose server-reported status is HALTED while its
halt_count is below the WARNING threshold and no local override is set. -/
def srvHaltedAgent : AgentRec :=
  { agent_id := some "agent-009", status := some "HALTED",
    halt_count := 0, total_steps := 5 }

/-- C5 counterexample: an agent the server reports as HALTED, with no local
halt override and halt_count 0, is displayed as RUNNING by the merge rule,
not HALTED as the claimed precedence (local > server > threshold) requires:
the server-reported status field is ignored. -/
theorem merge_ignores_server_status_cex :
    srvHaltedAgent.status = some "HALTED" ∧
    (mergeAgents [srvHaltedAgent] [] AGENT_NAMES).map AgentRec.status =
      [some "RUNNING"] := by
  constructor <;> rfl

/-- C5 (amended): the derived display status follows the precedence
locally-halted > haltCount-above-threshold (WARNING, threshold 2) > RUNNING,
independently of the server-reported status field; once the local override
is cleared the status reverts to the halt-count-derived value. -/
theorem merge_status_precedence (agents : List AgentRec)
    (localHalted : List (Option String)) (names : List (String × String))
    (s : Option String) :
    ((mergeAgents agents localHalted names).map AgentRec.status =
      agents.map (fun a => some (if localHalted.contains a.agent_id then "HALTED"
        else if a.halt_count > 2 then "WARNING" else "RUNNING"))) ∧
    ((mergeAgents (agents.map (fun a => { a with status := s })) localHalted names).map
        AgentRec.status =
      (mergeAgents agents localHalted names).map AgentRec.status) := by
  constructor
  · simp only [mergeAgents, List.map_map]
    refine List.map_congr_left ?_
    intro a _
    simp [mergedStatus]
  · simp only [mergeAgents, List.map_map]
    refine List.map_congr_left ?_
    intro a _
    simp [mergedStatus]

/-- setAgents update on one pushed decision
(AgentWatchDashboard.jsx lines 1180-1201): when an agent with the
decision's agent_id exists, bump its counters; otherwise append a fresh
agent with initial counts and status RUNNING. -/
def applyIncrementalDecision (agents : List AgentRec) (d : DecisionRecord) :
    List AgentRec :=
  match agents.find? (fun a => a.agent_id = d.agent_id) with
  | some _ =>
      agents.map (fun a =>
        if a.agent_id = d.agent_id then
          { a with
            total_steps := a.total_steps + 1,
            halt_count := if d.decision = some "HALT" then a.halt_count + 1 else a.halt_count,
            lastDecision := d.decision }
        else a)
  | none =>
      agents ++
        [{ agent_id := d.agent_id,
           name := displayName AGENT_NAMES d.agent_id,
           total_steps := 1,
           halt_count := if d.decision = some "HALT" then 1 else 0,
           status := some "RUNNING",
           lastDecision := d.decision }]

/-- C4: a pushed decision bumps exactly the matching agent (total_steps + 1,
halt_count + 1 exactly on HALT), leaves every other agent unchanged in
place, and when no agent matches appends a fresh agent with total_steps 1,
halt_count 1 on HALT and 0 otherwise, and status RUNNING. -/
theorem incremental_decision_spec (agents : List AgentRec) (d : DecisionRecord) :
    (∀ i, (h : i < agents.length) →
      (agents.get ⟨i, h⟩).agent_id ≠ d.agent_id →
      (applyIncrementalDecision agents d)[i]? = some (agents.get ⟨i, h⟩)) ∧
    (∀ i, (h : i < agents.length) →
      (agents.get ⟨i, h⟩).agent_id = d.agent_id →
      (applyIncrementalDecision agents d)[i]? =
        some { agents.get ⟨i, h⟩ with
               total_steps := (agents.get ⟨i, h⟩).total_steps + 1,
               halt_count := if d.decision = some "HALT" then
                   (agents.get ⟨i, h⟩).halt_count + 1
                 else (agents.get ⟨i, h⟩).halt_count,
               lastDecision := d.decision }) ∧
    ((∀ a ∈ agents, a.agent_id ≠ d.agent_id) →
      applyIncrementalDecision agents d =
        agents ++
          [{ agent_id := d.agent_id,
             name := displayName AGENT_NAMES d.agent_id,
             total_steps := 1,
             halt_count := if d.decision = some "HALT" then 1 else 0,
             status := some "RUNNING",
             lastDecision := d.decision }]) := by
  unfold applyIncrementalDecision
  refine ⟨?_, ?_, ?_⟩
  · intro i h hne
    cases hf : agents.find? (fun a => a.agent_id = d.agent_id) with
    | some a0 =>
        simp only [hf, List.getElem?_map]
        rw [List.getElem?_eq_getElem h]
        simp [List.get_eq_getElem] at hne
        simp [hne]
    | none =>
        simp only [hf]
        rw [List.getElem?_append, if_pos h]
        rw [List.getElem?_eq_getElem h]
        simp [List.get_eq_getElem]
  · intro i h heq
    have hfind : (agents.find? (fun a => a.agent_id = d.agent_id)).isSome := by
      rw [List.find?_isSome]
      exact ⟨agents.get ⟨i, h⟩, List.get_mem agents i h, by simpa using heq⟩
    cases hf : agents.find? (fun a => a.agent_id = d.agent_id) with
    | some a0 =>
        simp only [hf, List.getElem?_map]
        rw [List.getElem?_eq_getElem h]
        simp [List.get_eq_getElem] at heq
        simp [List.get_eq_getElem, heq]
    | none => rw [hf] at hfind; simp at hfind
  · intro hall
    cases hf : agents.find? (fun a => a.agent_id = d.agent_id) with
    | some a0 =>
        have := List.find?_some hf
        have hmem := List.mem_of_find?_eq_some hf
        simp only [decide_eq_true_eq] at this
        exact absurd this (hall a0 hmem)
    | none => simp

/-- Two-agent registry used to witness C4. -/
def wAgents : List AgentRec :=
  [{ agent_id := some "agent-001", total_steps := 4, halt_count := 1 },
   { agent_id := some "agent-002", total_steps := 7, halt_count := 3 }]

/-- Concrete HALT decision for agent-002, used to witness C4. -/
def wHaltDecision : DecisionRecord :=
  { id := some "w-2", agent_id := some "agent-002", decision := some "HALT" }

/-- Concrete decision for an unknown agent, used to witness C4. -/
def wNewAgentDecision : DecisionRecord :=
  { id := some "w-3", agent_id := some "agent-042", decision := some "PROCEED" }

theorem incremental_decision_spec_witness :
    (applyIncrementalDecision wAgents wHaltDecision)[0]? =
      some { agent_id := some "agent-001", total_steps := 4, halt_count := 1 } ∧
    (applyIncrementalDecision wAgents wHaltDecision)[1]? =
      some { agent_id := some "agent-002", total_steps := 8, halt_count := 4,
             lastDecision := some "HALT" } ∧
    applyIncrementalDecision wAgents wNewAgentDecision =
      wAgents ++
        [{ agent_id := some "agent-042",
           name := some "agent-042",
           total_steps := 1, halt_count := 0,
           status := some "RUNNING", lastDecision := some "PROCEED" }] := by
  have h := incremental_decision_spec wAgents wHaltDecision
  have h2 := incremental_decision_spec wAgents wNewAgentDecision
  refine ⟨?_, ?_, ?_⟩
  · have := h.1 0 (by decide) (by decide)
    simpa using this
  · have := h.2.1 1 (by decide) (by decide)
    simpa using this
  · have := h2.2.2 (by decide)
    rw [this]
    rfl

/-- A step node of a reasoning-graph payload. -/
structure GNode where
  id : Option String := none
  agent_id : Option String := none
  decision : Option String := none
  thought : Option String := none
  tool_used : Option String := none
  deriving Repr, DecidableEq

/-- A cross-agent influence link of a reasoning-graph payload. -/
structure Influence where
  source : Option String := none
  target : Option String := none
  source_agent : Option String := none
  target_agent : Option String := none
  deriving Repr, DecidableEq

/-- A per-agent reasoning-graph payload as fetched from the backend. -/
structure GraphPayload where
  agent_id : Option String := none
  nodes : List GNode := []
  cross_agent_nodes : List GNode := []
  influences : List Influence := []
  deriving Repr, DecidableEq

/-- The dashboard's core state: agent registry, decision buffer, stats
snapshot (null before first data), current selection and graph, the
server-reported halted set, the client-authoritative local halt override
set, and the session-scoped seen-identity set. -/
structure DashState where
  agents : List AgentRec := []
  logs : List DecisionRecord := []
  stats : Option Stats := none
  selectedAgent : Option String := none
  agentGraph : Option GraphPayload := none
  haltedAgents : List (Option String) := []
  localHalted : List (Option String) := []
  seenIds : List String := []
  deriving Repr, DecidableEq

/-- JS Set add: append unless already present. -/
def setAdd (s : List (Option String)) (v : Option String) : List (Option String) :=
  if s.contains v then s else s ++ [v]

/-- The ws decision-message handler (AgentWatchDashboard.jsx lines
1145-1201): skip a seen identity entirely; otherwise mark it seen, prepend
the flagged record to the buffer truncated to 100, update the stats
incrementally and the agent registry incrementally. -/
def applyPushDecision (st : DashState) (d : DecisionRecord) : DashState :=
  if st.seenIds.contains (recordUid d) then st
  else
    { st with
      seenIds := st.seenIds ++ [recordUid d],
      logs := ({ d with isNew := true } :: st.logs).take 100,
      stats := some (applyDecisionStats (st.stats.getD zeroStats) d),
      agents := applyIncrementalDecision st.agents d }

/-- The ws reset-message handler (AgentWatchDashboard.jsx lines 1210-1221):
clear agents, logs, selection and graph, zero the stats, and empty both
halt sets and the seen-identity set. -/
def applyReset (st : DashState) : DashState :=
  { st with
    agents := [], logs := [], stats := some zeroStats,
    selectedAgent := none, agentGraph := none,
    haltedAgents := [], localHalted := [], seenIds := [] }

/-- The manual-halt decision entry synthesized by the stop action
(AgentWatchDashboard.jsx lines 1321-1333); nowMs renders Date.now() and
nowIso the ISO timestamp. -/
def manualHaltEntry (agentId : Option String) (nowMs nowIso : String) : DecisionRecord :=
  { id := some ("halt-" ++ strOrUndefined agentId ++ "-" ++ nowMs),
    agent_id := agentId,
    decision := some "HALT",
    reason := some "MANUAL_OVERRIDE",
    details := some "Agent halted via dashboard",
    triggered_by := some "dashboard_user",
    thought := some ("Manual stop issued for " ++ strOrUndefined agentId ++
      " via Argus dashboard."),
    tool_used := some "—",
    raw_log := some "",
    timestamp := some nowIso,
    isNew := true }

/-- The stop action handleStop (AgentWatchDashboard.jsx lines 1313-1346):
add the agent to both halt sets, force its registry row to HALTED, and
prepend the synthesized manual-halt entry to the buffer (note: without
truncation). -/
def handleStop (st : DashState) (agentId : Option String) (nowMs nowIso : String) :
    DashState :=
  { st with
    localHalted := setAdd st.localHalted agentId,
    haltedAgents := setAdd st.haltedAgents agentId,
    agents := st.agents.map (fun a =>
      if a.agent_id = agentId then
        { a with status := some "HALTED", lastDecision := some "HALT" }
      else a),
    logs := manualHaltEntry agentId nowMs nowIso :: st.logs }

/-- The resume action handleResume (AgentWatchDashboard.jsx lines
1349-1366): remove the agent from both halt sets and set its registry row
back to RUNNING. -/
def handleResume (st : DashState) (agentId : Option String) : DashState :=
  { st with
    localHalted := st.localHalted.filter (fun v => !(v == agentId)),
    haltedAgents := st.haltedAgents.filter (fun v => !(v == agentId)),
    agents := st.agents.map (fun a =>
      if a.agent_id = agentId then { a with status := some "RUNNING" } else a) }

/-- C8: processing a reset message clears all core state regardless of
prior content: empty decision buffer, empty agent registry, zeroed stats
snapshot, empty local halt override set, empty server halted set, and empty
session-scoped seen-identity set. -/
theorem reset_clears_all (st : DashState) :
    (applyReset st).logs = [] ∧
    (applyReset st).agents = [] ∧
    (applyReset st).stats = some zeroStats ∧
    (applyReset st).localHalted = [] ∧
    (applyReset st).haltedAgents = [] ∧
    (applyReset st).seenIds = [] :=
  ⟨rfl, rfl, rfl, rfl, rfl, rfl⟩

/-- C9: resume changes only the resumed agent's local halt override and its
displayed status: every agent keeps its agent_id, name, total_steps and
halt_count, agents with a different id keep their whole record in place,
and the decision buffer, stats snapshot and seen-identity set are
untouched; the resumed id is no longer locally halted. -/
theorem resume_frame_effect (st : DashState) (aid : Option String) :
    (handleResume st aid).logs = st.logs ∧
    (handleResume st aid).stats = st.stats ∧
    (handleResume st aid).seenIds = st.seenIds ∧
    (handleResume st aid).agents.map AgentRec.agent_id =
      st.agents.map AgentRec.agent_id ∧
    (handleResume st aid).agents.map AgentRec.name = st.agents.map AgentRec.name ∧
    (handleResume st aid).agents.map AgentRec.total_steps =
      st.agents.map AgentRec.total_steps ∧
    (handleResume st aid).agents.map AgentRec.halt_count =
      st.agents.map AgentRec.halt_count ∧
    (∀ i, (h : i < st.agents.length) →
      (st.agents.get ⟨i, h⟩).agent_id ≠ aid →
      (handleResume st aid).agents[i]? = some (st.agents.get ⟨i, h⟩)) ∧
    aid ∉ (handleResume st aid).localHalted := by
  refine ⟨rfl, rfl, rfl, ?_, ?_, ?_, ?_, ?_, ?_⟩
  · simp only [handleResume, List.map_map]
    refine List.map_congr_left ?_
    intro a _
    by_cases h : a.agent_id = aid <;> simp [h]
  · simp only [handleResume, List.map_map]
    refine List.map_congr_left ?_
    intro a _
    by_cases h : a.agent_id = aid <;> simp [h]
  · simp only [handleResume, List.map_map]
    refine List.map_congr_left ?_
    intro a _
    by_cases h : a.agent_id = aid <;> simp [h]
  · simp only [handleResume, List.map_map]
    refine List.map_congr_left ?_
    intro a _
    by_cases h : a.agent_id = aid <;> simp [h]
  · intro i h hne
    simp only [handleResume, List.getElem?_map]
    rw [List.getElem?_eq_getElem h]
    simp [List.get_eq_getElem] at hne
    simp [hne]
  · simp [handleResume, List.mem_filter]

/-- Concrete dashboard state used to witness C9. -/
def wState : DashState :=
  { agents := wAgents.map (fun a =>
      if a.agent_id = some "agent-002" then { a with status := some "HALTED" } else a),
    logs := [haltNoReasonRec],
    stats := some zeroStats,
    haltedAgents := [some "agent-002"],
    localHalted := [some "agent-002"],
    seenIds := ["w-1"] }

theorem resume_frame_effect_witness :
    (handleResume wState (some "agent-002")).logs = wState.logs ∧
    (handleResume wState (some "agent-002")).stats = wState.stats ∧
    (handleResume wState (some "agent-002")).agents.map AgentRec.total_steps =
      wState.agents.map AgentRec.total_steps ∧
    (handleResume wState (some "agent-002")).agents[0]? = some wState.agents[0] ∧
    some "agent-002" ∉ (handleResume wState (some "agent-002")).localHalted := by
  have h := resume_frame_effect wState (some "agent-002")
  refine ⟨h.1, h.2.1, h.2.2.2.2.2.1, ?_, h.2.2.2.2.2.2.2.2⟩
  have := h.2.2.2.2.2.2.2.1 0 (by decide) (by decide)
  simpa using this

/-- A dashboard state whose buffer already holds 100 entries. -/
def cexFullState : DashState :=
  { logs := (List.range 100).map (fun i => { id := some (toString i) }) }

/-- C2 counterexample: the stop action prepends its synthesized
manual-halt entry without truncating, so a buffer already at the 100-entry
cap grows to 101 entries, refuting the claim that every entry-adding
operation truncates to 100. -/
theorem stop_exceeds_cap_cex :
    cexFullState.logs.length = 100 ∧
    (handleStop cexFullState (some "agent-001") "0" "t0").logs.length = 101 := by
  constructor
  · simp [cexFullState]
  · simp [handleStop, cexFullState]

/-- C2 (amended): poll-batch ingestion and push-message ingestion keep the
buffer at no more than 100 entries (keeping the most recently ingested,
evicting past the cap), but the manual-halt synthesis of the stop action
prepends without truncating and always grows the buffer by exactly one. -/
theorem buffer_cap_amended (st : DashState) (rst : ReconcilerState)
    (batch : List DecisionRecord) (d : DecisionRecord) (aid : Option String)
    (nowMs nowIso : String) :
    (rst.logs.length ≤ 100 → (ingestPoll rst batch).1.logs.length ≤ 100) ∧
    (ingestPoll rst batch).1.logs.Sublist ((ingestPoll rst batch).2 ++ rst.logs) ∧
    (st.logs.length ≤ 100 → (applyPushDecision st d).logs.length ≤ 100) ∧
    (handleStop st aid nowMs nowIso).logs.length = st.logs.length + 1 := by
  refine ⟨?_, ?_, ?_, ?_⟩
  · intro h
    simp only [ingestPoll]
    split
    · simp [List.length_take_le]
    · exact h
  · simp only [ingestPoll]
    split
    · exact (List.take_sublist 100 _)
    · rename_i hlen
      have : newEntriesOf rst.seenIds batch = [] := by
        have := Nat.eq_zero_of_not_pos hlen
        exact List.length_eq_zero.mp this
      rw [this]
      simp
  · intro h
    simp only [applyPushDecision]
    split
    · exact h
    · simp [List.length_take_le]
  · simp [handleStop]

theorem buffer_cap_amended_witness :
    (ingestPoll { seenIds := [], logs := [] } [wHaltDecision]).1.logs.length ≤ 100 ∧
    (applyPushDecision {} wHaltDecision).logs.length ≤ 100 ∧
    (handleStop {} (some "agent-001") "0" "t0").logs.length =
      (DashState.logs {}).length + 1 := by
  have h := buffer_cap_amended {} { seenIds := [], logs := [] } [wHaltDecision]
    wHaltDecision (some "agent-001") "0" "t0"
  exact ⟨h.1 (by decide), h.2.2.1 (by decide), h.2.2.2⟩

/-- A record missing both required fields (agent_id and decision). -/
def malformedRec : DecisionRecord := { id := some "m-1" }

/-- A well-formed record sharing a batch with the malformed one. -/
def wellFormedRec : DecisionRecord :=
  { id := some "ok-1", agent_id := some "agent-001", step_id := some "s1",
    decision := some "PROCEED" }

/-- C6 counterexample: a record missing both agent_id and decision is not
dropped by batch ingestion: it is reported as a genuinely-new entry and
lands in the decision buffer, refuting the claim that malformed records are
dropped individually. -/
theorem malformed_not_dropped_cex :
    malformedRec.agent_id = none ∧ malformedRec.decision = none ∧
    (ingestPoll { seenIds := [], logs := [] } [malformedRec]).2.length = 1 ∧
    { malformedRec with isNew := true } ∈
      (ingestPoll { seenIds := [], logs := [] } [malformedRec]).1.logs := by
  refine ⟨rfl, rfl, ?_, ?_⟩ <;> decide

/-- C6 (amended): batch ingestion never drops a record for missing fields
and never aborts: the genuinely-new entries are exactly the records whose
identity is unseen — malformed or not — each counted, and (for batches of
at most 100 records) each ingested into the buffer alongside every
well-formed record of the same batch. -/
theorem batch_no_drop_amended (st : ReconcilerState) (batch : List DecisionRecord) :
    (ingestPoll st batch).2 =
      (batch.filter (fun d => !(st.seenIds.contains (recordUid d)))).map
        (fun d => { d with isNew := true }) ∧
    (∀ d ∈ batch, recordUid d ∉ st.seenIds →
      { d with isNew := true } ∈ (ingestPoll st batch).2) ∧
    (batch.length ≤ 100 → ∀ d ∈ batch, recordUid d ∉ st.seenIds →
      { d with isNew := true } ∈ (ingestPoll st batch).1.logs) := by
  have hmem : ∀ d ∈ batch, recordUid d ∉ st.seenIds →
      { d with isNew := true } ∈ newEntriesOf st.seenIds batch := by
    intro d hd hseen
    unfold newEntriesOf
    refine List.mem_map.mpr ⟨d, ?_, rfl⟩
    simp only [List.mem_filter, hd, true_and]
    simpa using hseen
  refine ⟨rfl, hmem, ?_⟩
  intro hlen d hd hseen
  have hnew := hmem d hd hseen
  have hlen2 : (newEntriesOf st.seenIds batch).length ≤ 100 := by
    calc (newEntriesOf st.seenIds batch).length
        ≤ batch.length := by
          unfold newEntriesOf
          simpa using List.length_filter_le _ batch
      _ ≤ 100 := hlen
  simp only [ingestPoll]
  split
  · rw [List.take_append_eq_append_take, List.take_of_length_le hlen2]
    exact List.mem_append_left _ hnew
  · rename_i hpos
    exact absurd (List.length_pos.mpr (List.ne_nil_of_mem hnew)) hpos

theorem batch_no_drop_amended_witness :
    { malformedRec with isNew := true } ∈
      (ingestPoll { seenIds := [], logs := [] } [malformedRec, wellFormedRec]).2 ∧
    { wellFormedRec with isNew := true } ∈
      (ingestPoll { seenIds := [], logs := [] } [malformedRec, wellFormedRec]).1.logs := by
  have h := batch_no_drop_amended { seenIds := [], logs := [] }
    [malformedRec, wellFormedRec]
  exact ⟨h.2.1 malformedRec (by decide) (by decide),
    h.2.2 (by decide) wellFormedRec (by decide) (by decide)⟩

/-- A node label: 1-based step index on the selected agent's lane, or a
3-character uppercased agent-id tag on external lanes. -/
inductive StepLabel
  | num (n : Nat)
  | tag (s : String)
  deriving Repr, DecidableEq

/-- A positioned node emitted by the reasoning-graph layout
(the allGraphNodes entries of AgentWatchDashboard.jsx lines 440-453). -/
structure PNode where
  id : Option String
  agent_id : Option String
  x : Nat
  y : Nat
  decision : Option String
  thought : Option String
  tool : Option String
  stepNum : StepLabel
  isExternal : Bool
  isMain : Bool
  deriving Repr, DecidableEq

/-- One pass of the upstream/downstream classification over a single
influence record (AgentWatchDashboard.jsx lines 406-420). -/
def classifyStep (selectedAgent : String)
    (acc : List (Option String) × List (Option String)) (inf : Influence) :
    List (Option String) × List (Option String) :=
  if inf.target_agent = some selectedAgent then (setAdd acc.1 inf.source_agent, acc.2)
  else if inf.source_agent = some selectedAgent then
    (acc.1, setAdd acc.2 inf.target_agent)
  else
    (if acc.1.any (fun u => inf.target_agent = u) then setAdd acc.1 inf.source_agent
     else acc.1,
     if acc.2.any (fun v => inf.source_agent = v) then setAdd acc.2 inf.target_agent
     else acc.2)

/-- Upstream and downstream agent sets of the selected agent, computed by
one forEach pass over the influence list (insertion-ordered JS Sets). -/
def classifyInfluences (selectedAgent : String) (influences : List Influence) :
    List (Option String) × List (Option String) :=
  influences.foldl (classifyStep selectedAgent) ([], [])

/-- Left-to-right lane order: upstream agents, then the selected agent,
then downstream agents (AgentWatchDashboard.jsx lines 402-428); without a
cross-agent chain the selected agent alone. -/
def agentOrderOf (selectedAgent : String) (g : GraphPayload) : List (Option String) :=
  if (decide (0 < g.cross_agent_nodes.length) || decide (0 < g.influences.length))
      && decide (0 < g.influences.length) then
    (classifyInfluences selectedAgent g.influences).1 ++
      some selectedAgent :: (classifyInfluences selectedAgent g.influences).2
  else [some selectedAgent]

/-- Per-agent step map (the agentSteps object, AgentWatchDashboard.jsx
lines 392-399): append an external node to its agent's entry, creating the
entry when the (stringified) key is absent. -/
def addExternalNode (m : List (String × List GNode)) (n : GNode) :
    List (String × List GNode) :=
  if m.any (fun p => p.1 = strOrUndefined n.agent_id) then
    m.map (fun p =>
      if p.1 = strOrUndefined n.agent_id then (p.1, p.2 ++ [n]) else p)
  else m ++ [(strOrUndefined n.agent_id, [n])]

/-- The agentSteps map: the selected agent's entry holds the (pre-truncated)
main nodes, external nodes are appended per agent in arrival order. -/
def buildAgentSteps (selectedAgent : String) (mainNodes : List GNode)
    (externalNodes : List GNode) : List (String × List GNode) :=
  externalNodes.foldl addExternalNode [(selectedAgent, mainNodes)]

/-- The lookup `agentSteps[agentId] || []`. -/
def lookupSteps (m : List (String × List GNode)) (k : String) : List GNode :=
  match m.find? (fun p => p.1 = k) with
  | some p => p.2
  | none => []

/-- Nodes of one lane (AgentWatchDashboard.jsx lines 435-454): the first 3
steps of the lane's agent, positioned by chain index and local step index. -/
def laneNodes (selectedAgent : String) (steps : List GNode) (aid : Option String)
    (chainIdx : Nat) : List PNode :=
  (steps.take 3).enum.map (fun q =>
    { id := q.2.id,
      agent_id := aid,
      x := 50 + chainIdx * 75,
      y := 40 + chainIdx * 30 + q.1 * 45,
      decision := q.2.decision,
      thought := q.2.thought,
      tool := q.2.tool_used,
      stepNum :=
        if aid = some selectedAgent then StepLabel.num (q.1 + 1)
        else StepLabel.tag (String.mk
            ((((strOrUndefined aid).data.takeWhile (fun c => c ≠ '-')).take 3).map
              Char.toUpper)),
      isExternal := !(decide (aid = some selectedAgent)),
      isMain := decide (aid = some selectedAgent) })

/-- One lane of the layout, from its (chainIdx, agentId) pair. -/
def laneOf (selectedAgent : String) (steps : List (String × List GNode))
    (p : Nat × Option String) : List PNode :=
  laneNodes selectedAgent (lookupSteps steps (strOrUndefined p.2)) p.2 p.1

/-- All emitted graph nodes: every lane of the agent order in turn.
The builder body runs only when an agent is selected and has nodes
(the early return at AgentWatchDashboard.jsx lines 372-378); this models
the layout it computes. -/
def allGraphNodes (selectedAgent : String) (g : GraphPayload) : List PNode :=
  ((agentOrderOf selectedAgent g).enum).flatMap
    (laneOf selectedAgent
      (buildAgentSteps selectedAgent (g.nodes.take 6) g.cross_agent_nodes))

/-- An emitted edge. -/
structure PEdge where
  fromNode : PNode
  toNode : PNode
  type : String
  deriving Repr, DecidableEq

/-- The nodeById lookup (Object.fromEntries over the emitted nodes,
AgentWatchDashboard.jsx line 457): string-keyed, the last entry for a
duplicate key wins. -/
def nodeById (ns : List PNode) (k : Option String) : Option PNode :=
  ns.reverse.find? (fun n => strOrUndefined n.id = strOrUndefined k)

/-- The INFLUENCES edges (AgentWatchDashboard.jsx lines 468-477): one per
influence record whose source and target both resolve to an emitted node;
unresolved links are dropped. -/
def influenceEdges (ns : List PNode) (influences : List Influence) : List PEdge :=
  influences.filterMap (fun inf =>
    match nodeById ns inf.source, nodeById ns inf.target with
    | some f, some t => some { fromNode := f, toNode := t, type := "INFLUENCES" }
    | _, _ => none)

/-- The NEXT edges between consecutive main-lane nodes
(AgentWatchDashboard.jsx lines 461-465). -/
def nextEdges (ns : List PNode) : List PEdge :=
  ((ns.filter (fun n => n.isMain)).zip (ns.filter (fun n => n.isMain)).tail).map
    (fun p => { fromNode := p.1, toNode := p.2, type := "NEXT" })

theorem laneNodes_length (sel : String) (steps : List GNode) (aid : Option String)
    (ci : Nat) : (laneNodes sel steps aid ci).length ≤ 3 := by
  simp [laneNodes]

theorem laneNodes_x (sel : String) (steps : List GNode) (aid : Option String)
    (ci : Nat) : ∀ n ∈ laneNodes sel steps aid ci, n.x = 50 + ci * 75 := by
  intro n hn
  obtain ⟨q, hq, rfl⟩ := List.mem_map.mp hn
  rfl

theorem laneNodes_map_id (sel : String) (steps : List GNode) (aid : Option String)
    (ci : Nat) :
    (laneNodes sel steps aid ci).map PNode.id = (steps.take 3).map GNode.id := by
  unfold laneNodes
  rw [List.map_map]
  have : (PNode.id ∘ fun q : Nat × GNode =>
      ({ id := q.2.id, agent_id := aid, x := 50 + ci * 75,
         y := 40 + ci * 30 + q.1 * 45, decision := q.2.decision,
         thought := q.2.thought, tool := q.2.tool_used,
         stepNum :=
           if aid = some sel then StepLabel.num (q.1 + 1)
           else StepLabel.tag (String.mk
            ((((strOrUndefined aid).data.takeWhile (fun c => c ≠ '-')).take 3).map
              Char.toUpper)),
         isExternal := !(decide (aid = some sel)),
         isMain := decide (aid = some sel) } : PNode)) = (GNode.id ∘ Prod.snd) := rfl
  rw [this, ← List.map_map, List.enum_map_snd]

theorem filter_lane_nil (sel : String) (steps : List (String × List GNode)) (i : Nat)
    (L : List (Nat × Option String)) (h : ∀ p ∈ L, p.1 ≠ i) :
    (L.flatMap (laneOf sel steps)).filter (fun n => decide (n.x = 50 + i * 75)) = [] := by
  rw [List.filter_eq_nil_iff]
  intro n hn
  obtain ⟨p, hp, hnp⟩ := List.mem_flatMap.mp hn
  have hx := laneNodes_x sel _ p.2 p.1 n hnp
  have : p.1 ≠ i := h p hp
  simp only [decide_eq_true_eq]
  omega

theorem filter_lane_bound (sel : String) (steps : List (String × List GNode))
    (target : List (Option String))
    (htar : ∀ k : String, ((lookupSteps steps k).map GNode.id).Sublist target)
    (L : List (Nat × Option String)) (hnd : (L.map Prod.fst).Nodup) (i : Nat) :
    (((L.flatMap (laneOf sel steps)).filter
        (fun n => decide (n.x = 50 + i * 75))).length ≤ 3) ∧
    ((((L.flatMap (laneOf sel steps)).filter
        (fun n => decide (n.x = 50 + i * 75))).map PNode.id).Sublist target) := by
  induction L with
  | nil => simp
  | cons q rest ih =>
      rw [List.flatMap_cons, List.filter_append]
      have hnd2 : (rest.map Prod.fst).Nodup := by
        rw [List.map_cons] at hnd
        exact hnd.of_cons
      have hq1 : q.1 ∉ rest.map Prod.fst := by
        rw [List.map_cons] at hnd
        exact (List.nodup_cons.mp hnd).1
      by_cases hqi : q.1 = i
      · have hrest : (rest.flatMap (laneOf sel steps)).filter
            (fun n => decide (n.x = 50 + i * 75)) = [] := by
          refine filter_lane_nil sel steps i rest ?_
          intro p hp hpi
          exact hq1 (by
            rw [hqi, ← hpi]
            exact List.mem_map.mpr ⟨p, hp, rfl⟩)
        rw [hrest, List.append_nil]
        constructor
        · exact le_trans (List.length_filter_le _ _) (laneNodes_length sel _ q.2 q.1)
        · have h1 : (((laneOf sel steps q).filter
              (fun n => decide (n.x = 50 + i * 75))).map PNode.id).Sublist
              ((laneOf sel steps q).map PNode.id) :=
            (List.filter_sublist _).map PNode.id
          refine h1.trans ?_
          rw [laneOf, laneNodes_map_id, List.map_take]
          exact (List.take_sublist 3 _).trans (htar _)
      · have hq : (laneOf sel steps q).filter
            (fun n => decide (n.x = 50 + i * 75)) = [] := by
          rw [List.filter_eq_nil_iff]
          intro n hn
          have hx := laneNodes_x sel _ q.2 q.1 n hn
          simp only [decide_eq_true_eq]
          omega
        rw [hq, List.nil_append]
        exact ih hnd2

theorem buildSteps_values (cross : List GNode) :
    ∀ (m : List (String × List GNode)) (acc : List GNode),
      (∀ p ∈ m, (p.2.map GNode.id).Sublist (acc.map GNode.id)) →
      ∀ q ∈ cross.foldl addExternalNode m,
        (q.2.map GNode.id).Sublist ((acc ++ cross).map GNode.id) := by
  induction cross with
  | nil =>
      intro m acc h q hq
      simpa using h q hq
  | cons n rest ih =>
      intro m acc h q hq
      rw [List.foldl_cons] at hq
      have h2 : ∀ p ∈ addExternalNode m n,
          (p.2.map GNode.id).Sublist ((acc ++ [n]).map GNode.id) := by
        intro p hp
        unfold addExternalNode at hp
        split at hp
        · obtain ⟨p0, hp0, rfl⟩ := List.mem_map.mp hp
          by_cases hk : p0.1 = strOrUndefined n.agent_id
          · rw [if_pos hk]
            rw [List.map_append, List.map_append]
            exact (h p0 hp0).append (List.Sublist.refl _)
          · rw [if_neg hk]
            rw [List.map_append]
            exact (h p0 hp0).trans (List.sublist_append_left _ _)
        · rcases List.mem_append.mp hp with hold | hnew
          · rw [List.map_append]
            exact (h p hold).trans (List.sublist_append_left _ _)
          · have : p = (strOrUndefined n.agent_id, [n]) := by simpa using hnew
            subst this
            rw [List.map_append]
            exact List.sublist_append_right _ _
      have := ih (addExternalNode m n) (acc ++ [n]) h2 q hq
      simpa [List.append_assoc] using this

theorem lookupSteps_sublist (sel : String) (mainNodes cross : List GNode) (k : String) :
    ((lookupSteps (buildAgentSteps sel mainNodes cross) k).map GNode.id).Sublist
      ((mainNodes ++ cross).map GNode.id) := by
  unfold lookupSteps
  cases hf : (buildAgentSteps sel mainNodes cross).find? (fun p => p.1 = k) with
  | none => simp
  | some p =>
      have hp := List.mem_of_find?_eq_some hf
      exact buildSteps_values cross [(sel, mainNodes)] mainNodes
        (by
          intro p0 hp0
          have : p0 = (sel, mainNodes) := by simpa using hp0
          subst this
          exact List.Sublist.refl _) p hp

theorem nodeById_mem (ns : List PNode) (k : Option String) (n : PNode)
    (h : nodeById ns k = some n) : n ∈ ns := by
  have := List.mem_of_find?_eq_some h
  exact List.mem_reverse.mp this

/-- C7: for every reasoning-graph input, every lane (agents at distinct
chain indices have distinct x offsets 50 + i·75) carries at most 3 nodes;
the ids of each lane's nodes form a subsequence of the input node lists
(nodes are taken in original chain order); and every emitted INFLUENCES
edge has both endpoint nodes in the emitted node set (links with a pruned
endpoint are dropped). -/
theorem graph_lane_bound_edge_closure (selectedAgent : String) (g : GraphPayload) :
    (∀ i : Nat,
      ((allGraphNodes selectedAgent g).filter
        (fun n => decide (n.x = 50 + i * 75))).length ≤ 3) ∧
    (∀ i : Nat,
      (((allGraphNodes selectedAgent g).filter
          (fun n => decide (n.x = 50 + i * 75))).map PNode.id).Sublist
        (((g.nodes ++ g.cross_agent_nodes).map GNode.id))) ∧
    (∀ e ∈ influenceEdges (allGraphNodes selectedAgent g) g.influences,
      e.fromNode ∈ allGraphNodes selectedAgent g ∧
      e.toNode ∈ allGraphNodes selectedAgent g) := by
  have htar : ∀ k : String,
      ((lookupSteps (buildAgentSteps selectedAgent (g.nodes.take 6)
          g.cross_agent_nodes) k).map GNode.id).Sublist
        ((g.nodes ++ g.cross_agent_nodes).map GNode.id) := by
    intro k
    refine (lookupSteps_sublist selectedAgent (g.nodes.take 6)
      g.cross_agent_nodes k).trans ?_
    rw [List.map_append, List.map_append]
    exact (by
      rw [List.map_take]
      exact List.take_sublist 6 _ : ((g.nodes.take 6).map GNode.id).Sublist
        (g.nodes.map GNode.id)).append (List.Sublist.refl _)
  have hnd : (((agentOrderOf selectedAgent g).enum).map Prod.fst).Nodup := by
    rw [List.enum_map_fst]
    exact List.nodup_range _
  refine ⟨?_, ?_, ?_⟩
  · intro i
    exact (filter_lane_bound selectedAgent _ _ htar _ hnd i).1
  · intro i
    exact (filter_lane_bound selectedAgent _ _ htar _ hnd i).2
  · intro e he
    obtain ⟨inf, _, hinf⟩ := List.mem_filterMap.mp he
    cases hs : nodeById (allGraphNodes selectedAgent g) inf.source with
    | none => rw [hs] at hinf; simp at hinf
    | some f =>
        cases ht : nodeById (allGraphNodes selectedAgent g) inf.target with
        | none => rw [hs, ht] at hinf; simp at hinf
        | some t =>
            rw [hs, ht] at hinf
            have he2 : e = { fromNode := f, toNode := t, type := "INFLUENCES" } := by
              simpa using hinf.symm
            subst he2
            exact ⟨nodeById_mem _ _ f hs, nodeById_mem _ _ t ht⟩

/-- Concrete reasoning-graph payload used to witness C7: the selected agent
has 4 steps, one upstream agent has 2 steps, and one influence link joins
them. -/
def wGraph : GraphPayload :=
  { agent_id := some "agent-001",
    nodes := [{ id := some "s1", agent_id := some "agent-001", decision := some "PROCEED" },
              { id := some "s2", agent_id := some "agent-001", decision := some "HALT" },
              { id := some "s3", agent_id := some "agent-001" },
              { id := some "s4", agent_id := some "agent-001" }],
    cross_agent_nodes := [{ id := some "x1", agent_id := some "agent-002" },
                          { id := some "x2", agent_id := some "agent-002" }],
    influences := [{ source := some "x1", target := some "s1",
                     source_agent := some "agent-002", target_agent := some "agent-001" }] }

/-- The one INFLUENCES edge wGraph produces. -/
def wEdge : PEdge :=
  { fromNode :=
      { id := some "x1", agent_id := some "agent-002", x := 50, y := 40,
        decision := none, thought := none, tool := none,
        stepNum := StepLabel.tag "AGE", isExternal := true, isMain := false },
    toNode :=
      { id := some "s1", agent_id := some "agent-001", x := 125, y := 70,
        decision := some "PROCEED", thought := none, tool := none,
        stepNum := StepLabel.num 1, isExternal := false, isMain := true },
    type := "INFLUENCES" }

theorem graph_lane_bound_edge_closure_witness :
    ((allGraphNodes "agent-001" wGraph).filter
      (fun n => decide (n.x = 50 + 1 * 75))).length ≤ 3 ∧
    wEdge.fromNode ∈ allGraphNodes "agent-001" wGraph ∧
    wEdge.toNode ∈ allGraphNodes "agent-001" wGraph := by
  have h := graph_lane_bound_edge_closure "agent-001" wGraph
  exact ⟨h.1 1, h.2.2 wEdge (by decide)⟩

end AgentWatch
